import Mathlib

/-!
Shallow embedding of the photo-upload repository: the batch submission
pipeline (`src/lib/scorestream-post.ts`), the sliding-window rate limiter
(`src/lib/rate-limit.ts`), the fan-out game lookup (`getUserGames`), and
the health-check endpoint (`src/app/api/health/route.ts`).
Network calls and thrown exceptions are modelled by explicit `Outcome`
values; JavaScript truthiness of strings (empty string is falsy) is made
explicit wherever the source relies on `||` chains.
-/

namespace ScoreStreamPost

/-- The media kind field of `PostPhotoParams` (`type?: photo | video`). -/
inductive MediaKind where
  | photo
  | video
deriving DecidableEq

/-- The team selection field (`teamSelection?: home | away | none`). -/
inductive TeamSelection where
  | home
  | away
  | noTeam
deriving DecidableEq

/-- Record `PostPhotoParams` from `src/lib/scorestream-post.ts`.  The `File` payload
is represented by its name, the only part the posting logic inspects. -/
structure PostPhotoParams where
  gameId : Int
  fileName : String
  userText : Option String := none
  kind : Option MediaKind := none
  teamSelection : Option TeamSelection := none
deriving DecidableEq

/-- A JSON value as it matters to the error chain of
`postPhotoToScoreStream`: the `data.error` field is either a string or an
object carrying an optional `message` field. -/
inductive ErrVal where
  | s (v : String)
  | obj (message : Option String)
deriving DecidableEq

/-- JavaScript truthiness of an `ErrVal`: objects are truthy, a string is
truthy when nonempty. -/
def ErrVal.truthy : ErrVal → Bool
  | .s v => v != ""
  | .obj _ => true

/-- One entry of `data.result.paramErrors`. -/
structure ParamErr where
  message : Option String := none
deriving DecidableEq

/-- The `result` object of a parsed response body. -/
structure RpcResult where
  paramErrors : Option (List ParamErr) := none
  postId : Option String := none
  gamePostId : Option String := none
deriving DecidableEq

/-- A parsed response body (`data`). -/
structure RpcData where
  error : Option ErrVal := none
  result : Option RpcResult := none
deriving DecidableEq

/-- The HTTP response: `ok` flag, numeric status, and the body, where
`none` models a body on which `JSON.parse` throws. -/
structure RemoteResponse where
  ok : Bool
  status : Nat
  body : Option RpcData
deriving DecidableEq

/-- A thrown value inside the `try` block: an `Error` with a message, or
any other value (mapped to the `Unknown error` text). -/
inductive ExnVal where
  | err (message : String)
  | other
deriving DecidableEq

/-- What the runtime delivers for one submission attempt: a remote
response, or an exception raised inside the `try` block. -/
inductive Outcome where
  | resp (r : RemoteResponse)
  | exn (e : ExnVal)
deriving DecidableEq

/-- The per-item result record (`PostResult`). -/
structure PostResult where
  success : Bool
  photoId : Option String := none
  postId : Option String := none
  fileName : Option String := none
  error : Option ErrVal := none
deriving DecidableEq

/-- The aggregate record (`BatchPostResult`). -/
structure BatchPostResult where
  successful : List PostResult
  failed : List PostResult
  totalPhotos : Nat
  successCount : Nat
  failureCount : Nat
deriving DecidableEq

/-- JavaScript `a || b` on optional strings: the empty string is falsy. -/
def jsOrStr (a b : Option String) : Option String :=
  match a with
  | some v => if v == "" then b else some v
  | none => b

/-- The parsed body, with the `JSON.parse` failure default
`\x7b error: Invalid response from ScoreStream API \x7d`. -/
def respData (resp : RemoteResponse) : RpcData :=
  match resp.body with
  | some d => d
  | none => { error := some (.s "Invalid response from ScoreStream API") }

/-- Expression `data.result?.paramErrors?.[0]?.message`. -/
def pmsg (d : RpcData) : Option String :=
  ((d.result.bind (fun r => r.paramErrors)).bind (fun l => l.head?)).bind
    (fun e => e.message)

/-- Expression `data.error?.message`: present only when `error` is an object with a
`message` field. -/
def errMessageField (e : Option ErrVal) : Option String :=
  match e with
  | some (.obj m) => m
  | _ => none

/-- Truthiness of `data.error`. -/
def dataErrTruthy (d : RpcData) : Bool :=
  match d.error with
  | some e => e.truthy
  | none => false

/-- Expression `data.result?.paramErrors?.length > 0`. -/
def paramErrsNonempty (d : RpcData) : Bool :=
  match d.result with
  | some r =>
    match r.paramErrors with
    | some l => decide (0 < l.length)
    | none => false
  | none => false

/-- Keep an optional string only when it is truthy. -/
def strTruthyOpt (o : Option String) : Option String :=
  match o with
  | some v => if v == "" then none else some v
  | none => none

/-- The error chain
`data.result?.paramErrors?.[0]?.message || data.error?.message || data.error || HTTP status`. -/
def errorMsg (d : RpcData) (status : Nat) : ErrVal :=
  match strTruthyOpt (pmsg d) with
  | some m => .s m
  | none =>
    match strTruthyOpt (errMessageField d.error) with
    | some m => .s m
    | none =>
      match d.error with
      | some e => if e.truthy then e else .s ("HTTP " ++ toString status)
      | none => .s ("HTTP " ++ toString status)

/-- The message put into the result when the `try` block throws:
`error instanceof Error ? error.message : Unknown error`. -/
def exnMessage : ExnVal → String
  | .err m => m
  | .other => "Unknown error"

/-- Function `postPhotoToScoreStream`: the response-handling and exception-handling
logic of the source function, with the network effect supplied as an
`Outcome`. -/
def postPhotoToScoreStream (params : PostPhotoParams) (oc : Outcome) : PostResult :=
  match oc with
  | .exn e =>
    { success := false
      fileName := some params.fileName
      error := some (.s (exnMessage e)) }
  | .resp resp =>
    if !resp.ok || dataErrTruthy (respData resp) || paramErrsNonempty (respData resp) then
      { success := false
        fileName := some params.fileName
        error := some (errorMsg (respData resp) resp.status) }
    else
      { success := true
        fileName := some params.fileName
        postId := jsOrStr ((respData resp).result.bind (fun r => r.postId))
          ((respData resp).result.bind (fun r => r.gamePostId)) }

/-- The sequential loop of `postMultiplePhotos`, accumulating the
`successful` and `failed` lists in submission order. -/
def postLoop : List (PostPhotoParams × Outcome) → List PostResult × List PostResult
  | [] => ([], [])
  | (p, oc) :: rest =>
    let r := postPhotoToScoreStream p oc
    let sf := postLoop rest
    if r.success then (r :: sf.1, sf.2) else (sf.1, r :: sf.2)

/-- Function `postMultiplePhotos`: run every item sequentially and aggregate. -/
def postMultiplePhotos (photos : List (PostPhotoParams × Outcome)) : BatchPostResult :=
  let sf := postLoop photos
  { successful := sf.1
    failed := sf.2
    totalPhotos := photos.length
    successCount := sf.1.length
    failureCount := sf.2.length }

/-- The name-based join of `retryFailedPhotos`:
`failedResults.map(failed => originalPhotos.find(p => p.file.name === failed.fileName)).filter(p => p !== undefined)`. -/
def photosToRetry (failedResults : List PostResult)
    (originalPhotos : List PostPhotoParams) : List PostPhotoParams :=
  (failedResults.map
    (fun fd => originalPhotos.find? (fun p => some p.fileName == fd.fileName))).filterMap id

/-- Function `retryFailedPhotos`: rebuild the retry list by file name and re-run the
whole pipeline on it, with fresh outcomes supplied positionally by `net`. -/
def retryFailedPhotos (net : Nat → Outcome) (failedResults : List PostResult)
    (originalPhotos : List PostPhotoParams) : BatchPostResult :=
  postMultiplePhotos
    (((photosToRetry failedResults originalPhotos).enum).map
      (fun ie => (ie.2, net ie.1)))

lemma postLoop_eq (items : List (PostPhotoParams × Outcome)) :
    postLoop items =
      ((items.map (fun pr => postPhotoToScoreStream pr.1 pr.2)).filter
        (fun r => r.success),
       (items.map (fun pr => postPhotoToScoreStream pr.1 pr.2)).filter
        (fun r => !r.success)) := by
  induction items with
  | nil => rfl
  | cons hd tl ih =>
    obtain ⟨p, oc⟩ := hd
    simp only [postLoop, ih, List.map_cons, List.filter_cons]
    cases h : (postPhotoToScoreStream p oc).success <;> simp [h]

lemma length_filter_bool_add (l : List PostResult) :
    (l.filter (fun r => r.success)).length +
      (l.filter (fun r => !r.success)).length = l.length := by
  induction l with
  | nil => rfl
  | cons hd tl ih =>
    cases h : hd.success <;> simp [List.filter_cons, h, ← ih] <;> omega

lemma photosToRetry_eq_filterMap (failedResults : List PostResult)
    (originalPhotos : List PostPhotoParams) :
    photosToRetry failedResults originalPhotos =
      failedResults.filterMap
        (fun fd => originalPhotos.find? (fun p => some p.fileName == fd.fileName)) := by
  unfold photosToRetry
  rw [List.filterMap_map]
  rfl

/-- Claim C1: for every input batch, `postMultiplePhotos` returns
`totalPhotos` equal to the number of inputs, `successCount` and
`failureCount` equal to the lengths of the two result lists, the counts sum
to the input length, and the two lists are exactly the partition of the
per-item results by the success flag, so every input item's result appears
in exactly one of them. -/
theorem postMultiplePhotos_partition (photos : List (PostPhotoParams × Outcome)) :
    (postMultiplePhotos photos).totalPhotos = photos.length ∧
    (postMultiplePhotos photos).successCount =
      (postMultiplePhotos photos).successful.length ∧
    (postMultiplePhotos photos).failureCount =
      (postMultiplePhotos photos).failed.length ∧
    (postMultiplePhotos photos).successCount +
      (postMultiplePhotos photos).failureCount = photos.length ∧
    (postMultiplePhotos photos).successful =
      (photos.map (fun pr => postPhotoToScoreStream pr.1 pr.2)).filter
        (fun r => r.success) ∧
    (postMultiplePhotos photos).failed =
      (photos.map (fun pr => postPhotoToScoreStream pr.1 pr.2)).filter
        (fun r => !r.success) := by
  have hmap := postLoop_eq photos
  have hlen := length_filter_bool_add
    (photos.map (fun pr => postPhotoToScoreStream pr.1 pr.2))
  refine ⟨rfl, rfl, rfl, ?_, ?_, ?_⟩
  · show (postLoop photos).1.length + (postLoop photos).2.length = photos.length
    rw [hmap]
    simpa using hlen
  · show (postLoop photos).1 = _
    rw [hmap]
  · show (postLoop photos).2 = _
    rw [hmap]

/-- Claim C4: an exception raised while submitting an item is converted into
a failed `PostResult` carrying the exception's message (or `Unknown error`
for a non-`Error` value), tagged with the file name; and the batch function
is total over its inputs, every input item contributing its result to one of
the two output lists, so no single failure aborts the remaining items. -/
theorem postMultiplePhotos_absorbs_exceptions :
    (∀ (p : PostPhotoParams) (e : ExnVal),
      postPhotoToScoreStream p (.exn e) =
        { success := false
          fileName := some p.fileName
          error := some (.s (exnMessage e)) }) ∧
    (∀ (photos : List (PostPhotoParams × Outcome))
        (pr : PostPhotoParams × Outcome), pr ∈ photos →
      postPhotoToScoreStream pr.1 pr.2 ∈ (postMultiplePhotos photos).successful ∨
      postPhotoToScoreStream pr.1 pr.2 ∈ (postMultiplePhotos photos).failed) := by
  constructor
  · intro p e
    rfl
  · intro photos pr hmem
    have hmap := postLoop_eq photos
    have hres : postPhotoToScoreStream pr.1 pr.2 ∈
        photos.map (fun q => postPhotoToScoreStream q.1 q.2) :=
      List.mem_map_of_mem _ hmem
    cases h : (postPhotoToScoreStream pr.1 pr.2).success with
    | true =>
      left
      show _ ∈ (postLoop photos).1
      rw [hmap]
      exact List.mem_filter.mpr ⟨hres, h⟩
    | false =>
      right
      show _ ∈ (postLoop photos).2
      rw [hmap]
      exact List.mem_filter.mpr ⟨hres, by simp [h]⟩

/-- Witness for claim C4 at a concrete one-item batch whose submission
throws an `Error`. -/
theorem postMultiplePhotos_absorbs_exceptions_witness :
    (({ gameId := 1, fileName := "a.jpg" }, Outcome.exn (.err "boom")) ∈
      [(({ gameId := 1, fileName := "a.jpg" } : PostPhotoParams),
        Outcome.exn (.err "boom"))]) ∧
    (postPhotoToScoreStream { gameId := 1, fileName := "a.jpg" }
        (Outcome.exn (.err "boom")) ∈
      (postMultiplePhotos
        [({ gameId := 1, fileName := "a.jpg" }, Outcome.exn (.err "boom"))]).successful ∨
     postPhotoToScoreStream { gameId := 1, fileName := "a.jpg" }
        (Outcome.exn (.err "boom")) ∈
      (postMultiplePhotos
        [({ gameId := 1, fileName := "a.jpg" }, Outcome.exn (.err "boom"))]).failed) :=
  ⟨by decide,
   postMultiplePhotos_absorbs_exceptions.2
     [({ gameId := 1, fileName := "a.jpg" }, Outcome.exn (.err "boom"))]
     ({ gameId := 1, fileName := "a.jpg" }, Outcome.exn (.err "boom"))
     (by decide)⟩

/-- Claim C2: `retryFailedPhotos` re-runs the whole pipeline on exactly the
requests rebuilt by the file-name join; provided the original requests have
pairwise distinct file names, a request is in the retry list precisely when
it is an original request whose file name matches some failed result, so
unmatched failed results are dropped and unmatched originals are not
re-attempted. -/
theorem retryFailedPhotos_matching_subset (net : Nat → Outcome)
    (failedResults : List PostResult) (originalPhotos : List PostPhotoParams)
    (hnames : (originalPhotos.map (fun p => p.fileName)).Nodup) :
    retryFailedPhotos net failedResults originalPhotos =
      postMultiplePhotos
        (((photosToRetry failedResults originalPhotos).enum).map
          (fun ie => (ie.2, net ie.1))) ∧
    ∀ p : PostPhotoParams,
      p ∈ photosToRetry failedResults originalPhotos ↔
        (p ∈ originalPhotos ∧
          ∃ fd ∈ failedResults, fd.fileName = some p.fileName) := by
  refine ⟨rfl, fun p => ?_⟩
  rw [photosToRetry_eq_filterMap, List.mem_filterMap]
  constructor
  · rintro ⟨fd, hfd, hfind⟩
    have hpmem : p ∈ originalPhotos := List.mem_of_find?_eq_some hfind
    have hpred := List.find?_some hfind
    exact ⟨hpmem, fd, hfd, (eq_of_beq hpred).symm⟩
  · rintro ⟨hpmem, fd, hfd, hname⟩
    refine ⟨fd, hfd, ?_⟩
    have hsat : ∃ a ∈ originalPhotos,
        (fun q => some q.fileName == fd.fileName) a = true :=
      ⟨p, hpmem, by simp [hname]⟩
    obtain ⟨q, hqfind⟩ :=
      Option.isSome_iff_exists.mp (List.find?_isSome.mpr hsat)
    have hqmem : q ∈ originalPhotos := List.mem_of_find?_eq_some hqfind
    have hqpred := List.find?_some hqfind
    have hqname : q.fileName = p.fileName := by
      have h1 : some q.fileName = fd.fileName := eq_of_beq hqpred
      rw [hname] at h1
      exact (Option.some_injective _ h1.symm).symm
    have : q = p :=
      List.inj_on_of_nodup_map hnames hqmem hpmem hqname
    rw [hqfind, this]

/-- Witness for claim C2 at a concrete failure list and original list with
distinct file names. -/
theorem retryFailedPhotos_matching_subset_witness :
    ((([{ gameId := 1, fileName := "a.jpg" },
        { gameId := 2, fileName := "b.jpg" }] :
          List PostPhotoParams).map (fun p => p.fileName)).Nodup) ∧
    (({ gameId := 2, fileName := "b.jpg" } : PostPhotoParams) ∈
        photosToRetry [{ success := false, fileName := some "b.jpg" }]
          [{ gameId := 1, fileName := "a.jpg" }, { gameId := 2, fileName := "b.jpg" }] ↔
      (({ gameId := 2, fileName := "b.jpg" } : PostPhotoParams) ∈
          [({ gameId := 1, fileName := "a.jpg" } : PostPhotoParams),
           { gameId := 2, fileName := "b.jpg" }] ∧
        ∃ fd ∈ [({ success := false, fileName := some "b.jpg" } : PostResult)],
          fd.fileName = some ({ gameId := 2, fileName := "b.jpg" } :
            PostPhotoParams).fileName)) :=
  ⟨by decide,
   (retryFailedPhotos_matching_subset
     (fun _ => Outcome.exn .other)
     [{ success := false, fileName := some "b.jpg" }]
     [{ gameId := 1, fileName := "a.jpg" }, { gameId := 2, fileName := "b.jpg" }]
     (by decide)).2 { gameId := 2, fileName := "b.jpg" }⟩

lemma count_retry_join_ge (originalPhotos : List PostPhotoParams)
    (n : String) (p : PostPhotoParams)
    (hfind : originalPhotos.find? (fun x => some x.fileName == some n) = some p) :
    ∀ fr : List PostResult,
      (fr.filterMap (fun fd => fd.fileName)).count n ≤
        (fr.filterMap
          (fun fd => originalPhotos.find?
            (fun x => some x.fileName == fd.fileName))).count p := by
  intro fr
  induction fr with
  | nil => simp
  | cons fd fr ih =>
    cases hfn : fd.fileName with
    | none =>
      have h1 : (fun fd => fd.fileName) fd = none := hfn
      have h2 : (fun fd => originalPhotos.find?
          (fun x => some x.fileName == fd.fileName)) fd = none := by
        simp only [hfn]
        rw [List.find?_eq_none]
        intro x _
        simp
      rw [@List.filterMap_cons_none _ _ (fun fd => fd.fileName) fd fr h1,
        @List.filterMap_cons_none _ _
          (fun fd => originalPhotos.find? (fun x => some x.fileName == fd.fileName))
          fd fr h2]
      exact ih
    | some m =>
      have h1 : (fun fd => fd.fileName) fd = some m := hfn
      rw [@List.filterMap_cons_some _ _ (fun fd => fd.fileName) fd fr m h1]
      by_cases hm : m = n
      · subst hm
        have h2 : (fun fd => originalPhotos.find?
            (fun x => some x.fileName == fd.fileName)) fd = some p := by
          simp only [hfn]
          exact hfind
        rw [@List.filterMap_cons_some _ _
          (fun fd => originalPhotos.find? (fun x => some x.fileName == fd.fileName))
          fd fr p h2]
        rw [List.count_cons_self, List.count_cons_self]
        omega
      · rw [List.count_cons_of_ne (fun h => hm h.symm)]
        cases hfo : originalPhotos.find? (fun x => some x.fileName == some m) with
        | none =>
          have h2 : (fun fd => originalPhotos.find?
              (fun x => some x.fileName == fd.fileName)) fd = none := by
            simp only [hfn]; exact hfo
          rw [@List.filterMap_cons_none _ _
            (fun fd => originalPhotos.find? (fun x => some x.fileName == fd.fileName))
            fd fr h2]
          exact ih
        | some r =>
          have h2 : (fun fd => originalPhotos.find?
              (fun x => some x.fileName == fd.fileName)) fd = some r := by
            simp only [hfn]; exact hfo
          rw [@List.filterMap_cons_some _ _
            (fun fd => originalPhotos.find? (fun x => some x.fileName == fd.fileName))
            fd fr r h2]
          exact le_trans ih (List.count_le_count_cons p r _)

/-- Claim C10: the retry join resolves each failed result to the first
original request with the matching file name; when at least two failed
results carry the name `n` and the first matching original is `p`, `p`
occurs at least twice in the retry list, while any other original `q`
carrying the same name is never retried. -/
theorem retryFailedPhotos_first_match_join
    (failedResults : List PostResult) (originalPhotos : List PostPhotoParams)
    (n : String) (p q : PostPhotoParams)
    (hcount : 2 ≤ (failedResults.filterMap (fun fd => fd.fileName)).count n)
    (hfind : originalPhotos.find? (fun x => some x.fileName == some n) = some p)
    (hq : q ∈ originalPhotos) (hqn : q.fileName = n) (hqp : q ≠ p) :
    2 ≤ (photosToRetry failedResults originalPhotos).count p ∧
    (photosToRetry failedResults originalPhotos).count q = 0 := by
  constructor
  · rw [photosToRetry_eq_filterMap]
    exact le_trans hcount
      (count_retry_join_ge originalPhotos n p hfind failedResults)
  · rw [List.count_eq_zero, photosToRetry_eq_filterMap]
    intro hmem
    obtain ⟨fd, _, hfd⟩ := List.mem_filterMap.mp hmem
    have hpred := List.find?_some hfd
    have hfdn : fd.fileName = some q.fileName := (eq_of_beq hpred).symm
    rw [hqn] at hfdn
    rw [hfdn] at hfd
    rw [hfind] at hfd
    exact hqp (Option.some_injective _ hfd.symm)

/-- Witness for claim C10: two failed results named `a.jpg` and two distinct
originals sharing that name. -/
theorem retryFailedPhotos_first_match_join_witness :
    2 ≤ (photosToRetry
        [{ success := false, fileName := some "a.jpg" },
         { success := false, fileName := some "a.jpg" }]
        [{ gameId := 1, fileName := "a.jpg" },
         { gameId := 2, fileName := "a.jpg" }]).count
      { gameId := 1, fileName := "a.jpg" } ∧
    (photosToRetry
        [{ success := false, fileName := some "a.jpg" },
         { success := false, fileName := some "a.jpg" }]
        [{ gameId := 1, fileName := "a.jpg" },
         { gameId := 2, fileName := "a.jpg" }]).count
      { gameId := 2, fileName := "a.jpg" } = 0 :=
  retryFailedPhotos_first_match_join
    [{ success := false, fileName := some "a.jpg" },
     { success := false, fileName := some "a.jpg" }]
    [{ gameId := 1, fileName := "a.jpg" },
     { gameId := 2, fileName := "a.jpg" }]
    "a.jpg"
    { gameId := 1, fileName := "a.jpg" }
    { gameId := 2, fileName := "a.jpg" }
    (by decide) (by decide) (by decide) (by decide) (by decide)

/-- Claim C3: whenever `postPhotoToScoreStream` reports failure for a remote
response, the result is tagged with the originating file name and its error
is derived by the priority chain: the first structured field-level error
message when truthy, else the message of the top-level error field when
truthy, else the top-level error value itself when truthy, else the
`HTTP status` fallback string. -/
theorem postPhotoToScoreStream_error_priority
    (params : PostPhotoParams) (resp : RemoteResponse)
    (hfail : (postPhotoToScoreStream params (.resp resp)).success = false) :
    (postPhotoToScoreStream params (.resp resp)).fileName =
      some params.fileName ∧
    (∀ m, pmsg (respData resp) = some m → m ≠ "" →
      (postPhotoToScoreStream params (.resp resp)).error = some (.s m)) ∧
    ((∀ m, pmsg (respData resp) = some m → m = "") →
      ∀ m, errMessageField (respData resp).error = some m → m ≠ "" →
        (postPhotoToScoreStream params (.resp resp)).error = some (.s m)) ∧
    ((∀ m, pmsg (respData resp) = some m → m = "") →
      (∀ m, errMessageField (respData resp).error = some m → m = "") →
      ∀ e, (respData resp).error = some e → e.truthy = true →
        (postPhotoToScoreStream params (.resp resp)).error = some e) ∧
    ((∀ m, pmsg (respData resp) = some m → m = "") →
      (∀ m, errMessageField (respData resp).error = some m → m = "") →
      dataErrTruthy (respData resp) = false →
      (postPhotoToScoreStream params (.resp resp)).error =
        some (.s ("HTTP " ++ toString resp.status))) := by
  have herr : (postPhotoToScoreStream params (.resp resp)).error =
      some (errorMsg (respData resp) resp.status) ∧
      (postPhotoToScoreStream params (.resp resp)).fileName =
        some params.fileName := by
    cases hc : (!resp.ok || dataErrTruthy (respData resp) ||
        paramErrsNonempty (respData resp)) with
    | true =>
      simp only [postPhotoToScoreStream]
      rw [if_pos hc]
      exact ⟨rfl, rfl⟩
    | false =>
      exfalso
      simp only [postPhotoToScoreStream] at hfail
      rw [hc] at hfail
      simp at hfail
  refine ⟨herr.2, ?_, ?_, ?_, ?_⟩
  · intro m hm hne
    rw [herr.1]
    unfold errorMsg strTruthyOpt
    rw [hm]
    simp [hne]
  · intro hp m hm hne
    rw [herr.1]
    unfold errorMsg strTruthyOpt
    cases hpm : pmsg (respData resp) with
    | none =>
      rw [hm]
      simp [hne]
    | some m0 =>
      have : m0 = "" := hp m0 hpm
      subst this
      simp only [if_pos]
      rw [hm]
      simp [hne]
  · intro hp hq e he htr
    rw [herr.1]
    unfold errorMsg strTruthyOpt
    cases hpm : pmsg (respData resp) with
    | none =>
      cases hqm : errMessageField (respData resp).error with
      | none =>
        rw [he]
        simp [htr]
      | some m0 =>
        have : m0 = "" := hq m0 hqm
        subst this
        simp only [if_pos]
        rw [he]
        simp [htr]
    | some m0 =>
      have : m0 = "" := hp m0 hpm
      subst this
      simp only [if_pos]
      cases hqm : errMessageField (respData resp).error with
      | none =>
        rw [he]
        simp [htr]
      | some m1 =>
        have : m1 = "" := hq m1 hqm
        subst this
        simp only [if_pos]
        rw [he]
        simp [htr]
  · intro hp hq hfalse
    rw [herr.1]
    unfold errorMsg strTruthyOpt
    have he : ∀ e, (respData resp).error = some e → e.truthy = false := by
      intro e he
      unfold dataErrTruthy at hfalse
      rw [he] at hfalse
      exact hfalse
    cases hpm : pmsg (respData resp) with
    | none =>
      cases hqm : errMessageField (respData resp).error with
      | none =>
        cases herr2 : (respData resp).error with
        | none => rfl
        | some e => simp [he e herr2]
      | some m0 =>
        have : m0 = "" := hq m0 hqm
        subst this
        simp only [if_pos]
        cases herr2 : (respData resp).error with
        | none => rfl
        | some e => simp [he e herr2]
    | some m0 =>
      have : m0 = "" := hp m0 hpm
      subst this
      simp only [if_pos]
      cases hqm : errMessageField (respData resp).error with
      | none =>
        cases herr2 : (respData resp).error with
        | none => rfl
        | some e => simp [he e herr2]
      | some m1 =>
        have : m1 = "" := hq m1 hqm
        subst this
        simp only [if_pos]
        cases herr2 : (respData resp).error with
        | none => rfl
        | some e => simp [he e herr2]

/-- A concrete failing response with one structured field-level error, used
by the witness of claim C3. -/
def paramErrResp : RemoteResponse :=
  { ok := true
    status := 200
    body := some { result := some { paramErrors := some [{ message := some "bad field" }] } } }

/-- Witness for claim C3 at a failing response with one structured
field-level error. -/
theorem postPhotoToScoreStream_error_priority_witness :
    ((postPhotoToScoreStream { gameId := 1, fileName := "a.jpg" }
        (.resp paramErrResp)).success = false) ∧
    ((postPhotoToScoreStream { gameId := 1, fileName := "a.jpg" }
        (.resp paramErrResp)).error = some (.s "bad field")) :=
  ⟨by decide,
   (postPhotoToScoreStream_error_priority { gameId := 1, fileName := "a.jpg" }
      paramErrResp (by decide)).2.1 "bad field" (by decide) (by decide)⟩

end ScoreStreamPost

namespace RateLimit

/-- The per-key record of `rate-limit.ts` (`TokenData`). -/
structure TokenData where
  timestamps : List Int
  lastCleanup : Int
deriving DecidableEq

/-- One `check` call of the rate limiter for a single key: `stored` is the
record held for the key (`none` when absent), `now` the current time,
`interval` the window and `limit` the cap.  Returns whether the request was
allowed together with the record left for the key.  On the limit-exceeded
path the source throws after having pruned the stored record in place and
without pushing `now`; on the allowed path it pushes `now` and stores the
record. -/
def check (interval : Int) (limit : Nat) (now : Int)
    (stored : Option TokenData) : Bool × Option TokenData :=
  let td := stored.getD { timestamps := [], lastCleanup := now }
  let pruned := td.timestamps.filter (fun t => decide (now - interval < t))
  if limit ≤ pruned.length then
    (false, stored.map (fun d => { d with timestamps := pruned }))
  else
    (true, some { timestamps := pruned ++ [now], lastCleanup := now })

/-- A sequence of `check` calls for one key at the given times, threading
the stored record. -/
def checksAt (interval : Int) (limit : Nat) :
    List Int → Option TokenData → List Bool × Option TokenData
  | [], st => ([], st)
  | t :: ts, st =>
    let c := check interval limit t st
    let rest := checksAt interval limit ts c.2
    (c.1 :: rest.1, rest.2)

lemma checksAt_append (interval : Int) (limit : Nat) (l1 l2 : List Int)
    (st : Option TokenData) :
    checksAt interval limit (l1 ++ l2) st =
      ((checksAt interval limit l1 st).1 ++
        (checksAt interval limit l2 (checksAt interval limit l1 st).2).1,
       (checksAt interval limit l2 (checksAt interval limit l1 st).2).2) := by
  induction l1 generalizing st with
  | nil => rfl
  | cons t ts ih =>
    simp only [List.cons_append, checksAt, List.append_eq, ih]

lemma filter_replicate_true {p : Int → Bool} {a : Int} (n : Nat)
    (h : p a = true) : (List.replicate n a).filter p = List.replicate n a := by
  induction n with
  | zero => rfl
  | succ n ih => simp [List.replicate_succ, List.filter_cons, h, ih]

lemma filter_replicate_false {p : Int → Bool} {a : Int} (n : Nat)
    (h : p a = false) : (List.replicate n a).filter p = [] := by
  induction n with
  | zero => rfl
  | succ n ih => simp [List.replicate_succ, List.filter_cons, h, ih]

lemma checksAt_replicate_ok (interval : Int) (limit : Nat) (t : Int)
    (hW : 0 < interval) :
    ∀ (k j : Nat), j + k ≤ limit →
      checksAt interval limit (List.replicate k t)
          (some { timestamps := List.replicate j t, lastCleanup := t }) =
        (List.replicate k true,
         some { timestamps := List.replicate (j + k) t, lastCleanup := t }) := by
  intro k
  induction k with
  | zero => intro j _; rfl
  | succ k ih =>
    intro j hjk
    have hpred : (fun x => decide (t - interval < x)) t = true := by
      simp
      omega
    have hfilter := filter_replicate_true (p := fun x => decide (t - interval < x)) j hpred
    have hlt : ¬ limit ≤ (List.replicate j t).length := by
      rw [List.length_replicate]
      omega
    have hstep : check interval limit t
        (some { timestamps := List.replicate j t, lastCleanup := t }) =
        (true, some { timestamps := List.replicate (j + 1) t, lastCleanup := t }) := by
      unfold check
      simp only [Option.getD_some]
      rw [hfilter, if_neg hlt, List.replicate_succ']
    rw [List.replicate_succ, checksAt, hstep]
    rw [ih (j + 1) (by omega)]
    have hjk2 : j + 1 + k = j + (k + 1) := by omega
    rw [hjk2]
    simp [List.replicate_succ]

/-- The timestamps of a stored record that survive the pruning step of one
`check` call at time `now`. -/
def prunedTimestamps (interval now : Int) (stored : Option TokenData) : List Int :=
  (stored.getD { timestamps := [], lastCleanup := now }).timestamps.filter
    (fun x => decide (now - interval < x))

lemma check_eq (interval : Int) (limit : Nat) (now : Int)
    (stored : Option TokenData) :
    check interval limit now stored =
      if limit ≤ (prunedTimestamps interval now stored).length then
        (false, stored.map
          (fun d => { d with timestamps := prunedTimestamps interval now stored }))
      else
        (true, some { timestamps := prunedTimestamps interval now stored ++ [now], lastCleanup := now }) :=
  rfl

/-- Claim C5: a single `check` denies exactly when, after pruning timestamps
outside the window, at least `limit` remain; on denial no new timestamp is
recorded (the stored record keeps only the pruned timestamps), and on
success exactly the current timestamp is appended.  Consequently `limit`
requests at one instant all succeed, the next one at the same instant is
denied, and a request a full window later succeeds again. -/
theorem rateLimit_check_spec (limit : Nat) (interval t : Int)
    (hL : 1 ≤ limit) (hW : 0 < interval) :
    (∀ (stored : Option TokenData) (now : Int),
      ((check interval limit now stored).1 = false ↔
        limit ≤ (prunedTimestamps interval now stored).length) ∧
      ((check interval limit now stored).1 = false →
        ∀ td, (check interval limit now stored).2 = some td →
          td.timestamps = prunedTimestamps interval now stored) ∧
      ((check interval limit now stored).1 = true →
        (check interval limit now stored).2 =
          some { timestamps := prunedTimestamps interval now stored ++ [now], lastCleanup := now })) ∧
    (checksAt interval limit (List.replicate limit t ++ [t, t + interval]) none).1 =
      List.replicate limit true ++ [false, true] := by
  constructor
  · intro stored now
    by_cases hcond : limit ≤ (prunedTimestamps interval now stored).length
    · have hch : check interval limit now stored =
          (false, stored.map
            (fun d => { d with timestamps := prunedTimestamps interval now stored })) := by
        rw [check_eq, if_pos hcond]
      refine ⟨?_, ?_, ?_⟩
      · rw [hch]
        exact iff_of_true rfl hcond
      · intro _ td hst
        rw [hch] at hst
        cases stored with
        | none => simp at hst
        | some d =>
          have h2 : ({ timestamps := prunedTimestamps interval now (some d), lastCleanup := d.lastCleanup } : TokenData) = td :=
            Option.some_injective _ hst
          rw [← h2]
      · intro hallow
        rw [hch] at hallow
        simp at hallow
    · have hch : check interval limit now stored =
          (true, some { timestamps := prunedTimestamps interval now stored ++ [now], lastCleanup := now }) := by
        rw [check_eq, if_neg hcond]
      refine ⟨?_, ?_, ?_⟩
      · rw [hch]
        exact iff_of_false (by simp) hcond
      · intro hdeny
        rw [hch] at hdeny
        simp at hdeny
      · intro _
        rw [hch]
  · obtain ⟨m, rfl⟩ : ∃ m, limit = m + 1 := ⟨limit - 1, by omega⟩
    rw [checksAt_append]
    have hfirst : check interval (m + 1) t none =
        (true, some { timestamps := List.replicate 1 t, lastCleanup := t }) := by
      unfold check
      rw [if_neg (by simp)]
      rfl
    have hrun : checksAt interval (m + 1) (List.replicate (m + 1) t) none =
        (List.replicate (m + 1) true,
         some { timestamps := List.replicate (m + 1) t, lastCleanup := t }) := by
      rw [List.replicate_succ, checksAt, hfirst]
      have hrep := checksAt_replicate_ok interval (m + 1) t hW m 1 (by omega)
      have h1m : 1 + m = m + 1 := by omega
      rw [h1m] at hrep
      rw [hrep]
      simp [List.replicate_succ]
    rw [hrun]
    have hpred : (fun x => decide (t - interval < x)) t = true := by
      simp
      omega
    have hfull := filter_replicate_true (p := fun x => decide (t - interval < x))
      (m + 1) hpred
    have hdeny : check interval (m + 1) t
        (some { timestamps := List.replicate (m + 1) t, lastCleanup := t }) =
        (false, some { timestamps := List.replicate (m + 1) t, lastCleanup := t }) := by
      unfold check
      simp only [Option.getD_some]
      rw [hfull, if_pos (by rw [List.length_replicate])]
      rfl
    have hpred2 : (fun x => decide (t + interval - interval < x)) t = false := by
      simp
    have hempty := filter_replicate_false (p := fun x => decide (t + interval - interval < x))
      (m + 1) hpred2
    have hallow : check interval (m + 1) (t + interval)
        (some { timestamps := List.replicate (m + 1) t, lastCleanup := t }) =
        (true, some { timestamps := [t + interval], lastCleanup := t + interval }) := by
      unfold check
      simp only [Option.getD_some]
      rw [hempty, if_neg (by simp)]
      rfl
    simp only [checksAt, hdeny, hallow]

/-- Witness for claim C5 at limit 2, window 10, start time 0. -/
theorem rateLimit_check_spec_witness :
    1 ≤ 2 ∧ (0 : Int) < 10 ∧
    (checksAt 10 2 (List.replicate 2 0 ++ [0, 0 + 10]) none).1 =
      List.replicate 2 true ++ [false, true] :=
  ⟨by decide, by decide, (rateLimit_check_spec 2 10 0 (by decide) (by decide)).2⟩

end RateLimit

namespace ScoreStreamLookup

/-- A team record from a `teamCollection` list. -/
structure Team where
  teamId : Int
  teamName : Option String := none
  minTeamName : Option String := none
deriving DecidableEq

/-- The `lastScore` object of a game record. -/
structure LastScore where
  awayTeamScore : Int
  homeTeamScore : Int
  gameSegmentId : Int
deriving DecidableEq

/-- A raw game record from a `gameCollection` list. -/
structure RawGame where
  gameId : Int
  homeTeamId : Int
  awayTeamId : Int
  sportName : Option String := none
  startDateTime : String
  gameTitle : Option String := none
  lastScore : Option LastScore := none
deriving DecidableEq

/-- The `ScoreStreamGame` record assembled by `getUserGames`. -/
structure ScoreStreamGame where
  gameId : Int
  homeTeamId : Int
  awayTeamId : Int
  homeTeamName : String
  awayTeamName : String
  sportName : Option String
  startDateTime : String
  gameTitle : Option String
  lastScore : Option LastScore
deriving DecidableEq

/-- The collections delivered by one `teams.activity.cards.search` fan-out
call; a `Promise.all` slot whose call failed or had no `result` is `none`. -/
structure TeamResponse where
  teams : List Team
  games : List RawGame
deriving DecidableEq

/-- JavaScript `Map.has` on an association list keyed by team id. -/
def mapHas (m : List (Int × Team)) (k : Int) : Bool :=
  m.any (fun e => e.1 == k)

/-- JavaScript `Map.set`: overwrite the entry when the key is present,
append it otherwise. -/
def mapSet (m : List (Int × Team)) (k : Int) (v : Team) : List (Int × Team) :=
  if mapHas m k then m.map (fun e => if e.1 == k then (k, v) else e)
  else m ++ [(k, v)]

/-- JavaScript `Map.get`. -/
def mapGet (m : List (Int × Team)) (k : Int) : Option Team :=
  (m.find? (fun e => e.1 == k)).map (fun e => e.2)

/-- JavaScript `a || b` for a possibly-absent string `a`: the empty string
is falsy. -/
def strOr (a : Option String) (b : String) : String :=
  match a with
  | some s => if s == "" then b else s
  | none => b

/-- The team display-name chain
`team?.teamName || team?.minTeamName || `Team id``. -/
def resolveTeamName (t : Option Team) (id : Int) : String :=
  strOr (t.bind (fun tm => tm.teamName))
    (strOr (t.bind (fun tm => tm.minTeamName)) ("Team " ++ toString id))

/-- Step 1 of `getUserGames`: the favorite team ids, keeping only truthy
ids (`if (team.teamId)` drops id 0). -/
def favoriteTeamIds (teamList : List Team) : List Int :=
  (teamList.filter (fun tm => tm.teamId != 0)).map (fun tm => tm.teamId)

/-- Step 1 of `getUserGames`: the initial team map built with `Map.set`
from the favorite teams with truthy ids. -/
def initialTeamMap (teamList : List Team) : List (Int × Team) :=
  teamList.foldl
    (fun m tm => if tm.teamId != 0 then mapSet m tm.teamId tm else m) []

/-- Merging one fan-out response's teams:
`if (!teamMap.has(team.teamId)) teamMap.set(team.teamId, team)`. -/
def mergeTeams (m : List (Int × Team)) (teams : List Team) : List (Int × Team) :=
  teams.foldl (fun m tm => if mapHas m tm.teamId then m else mapSet m tm.teamId tm) m

/-- Assembling one output game from a raw game and the current team map. -/
def mkGame (m : List (Int × Team)) (g : RawGame) : ScoreStreamGame :=
  { gameId := g.gameId
    homeTeamId := g.homeTeamId
    awayTeamId := g.awayTeamId
    homeTeamName := resolveTeamName (mapGet m g.homeTeamId) g.homeTeamId
    awayTeamName := resolveTeamName (mapGet m g.awayTeamId) g.awayTeamId
    sportName := g.sportName
    startDateTime := g.startDateTime
    gameTitle := g.gameTitle
    lastScore := g.lastScore }

/-- The accumulation state of step 3: the team map, the `seen` set of game
ids, and the collected games. -/
structure CollectState where
  teamMap : List (Int × Team)
  seen : List Int
  games : List ScoreStreamGame

/-- One raw game of a response:
`if (game.gameId && !seen.has(game.gameId))` push and mark seen. -/
def addGame (st : CollectState) (g : RawGame) : CollectState :=
  if g.gameId != 0 && !(st.seen.contains g.gameId) then
    { st with
        seen := st.seen ++ [g.gameId]
        games := st.games ++ [mkGame st.teamMap g] }
  else st

/-- One fan-out response: merge its teams into the map, then process its
games. -/
def processResponse (st : CollectState) (resp : Option TeamResponse) : CollectState :=
  match resp with
  | none => st
  | some r =>
    r.games.foldl addGame
      { st with teamMap := mergeTeams st.teamMap r.teams }

/-- Step 3 of `getUserGames` over all fan-out responses. -/
def collectGames (initMap : List (Int × Team))
    (responses : List (Option TeamResponse)) : CollectState :=
  responses.foldl processResponse { teamMap := initMap, seen := [], games := [] }

/-- One step of the stable descending sort realized by
`games.sort((a, b) => time(b) - time(a))`: insert before the first element
whose key is less than or equal to the inserted key, so equal keys keep
their input order. -/
def insertByDate (getTime : String → Int) (g : ScoreStreamGame) :
    List ScoreStreamGame → List ScoreStreamGame
  | [] => [g]
  | b :: l =>
    if getTime b.startDateTime ≤ getTime g.startDateTime then g :: b :: l
    else b :: insertByDate getTime g l

/-- The stable descending-by-start-time sort of `getUserGames`, with the
date parse supplied as `getTime`. -/
def sortGames (getTime : String → Int) : List ScoreStreamGame → List ScoreStreamGame
  | [] => []
  | g :: l => insertByDate getTime g (sortGames getTime l)

/-- The games accumulated before the final sort (empty when the early
return for users without favorite teams fires). -/
def gamesBeforeSort (favTeams : List Team)
    (responses : List (Option TeamResponse)) : List ScoreStreamGame :=
  if favoriteTeamIds favTeams = [] then []
  else (collectGames (initialTeamMap favTeams) responses).games

/-- Function `getUserGames`, fan-out version: favorite teams, per-team activity
responses, merge with de-duplication, then sort by date descending. -/
def getUserGames (getTime : String → Int) (favTeams : List Team)
    (responses : List (Option TeamResponse)) : List ScoreStreamGame :=
  if favoriteTeamIds favTeams = [] then []
  else sortGames getTime (collectGames (initialTeamMap favTeams) responses).games

lemma mem_insertByDate (getTime : String → Int) (g x : ScoreStreamGame) :
    ∀ l : List ScoreStreamGame,
      x ∈ insertByDate getTime g l ↔ x = g ∨ x ∈ l := by
  intro l
  induction l with
  | nil => simp [insertByDate]
  | cons b l ih =>
    unfold insertByDate
    split
    · simp [or_comm, or_assoc, or_left_comm]
    · simp only [List.mem_cons, ih]
      tauto

lemma perm_insertByDate (getTime : String → Int) (g : ScoreStreamGame) :
    ∀ l : List ScoreStreamGame,
      List.Perm (insertByDate getTime g l) (g :: l) := by
  intro l
  induction l with
  | nil => simp [insertByDate]
  | cons b l ih =>
    unfold insertByDate
    split
    · exact List.Perm.refl _
    · exact List.Perm.trans (List.Perm.cons b ih) (List.Perm.swap g b l)

lemma perm_sortGames (getTime : String → Int) :
    ∀ l : List ScoreStreamGame, List.Perm (sortGames getTime l) l := by
  intro l
  induction l with
  | nil => exact List.Perm.refl _
  | cons g l ih =>
    unfold sortGames
    exact List.Perm.trans (perm_insertByDate getTime g (sortGames getTime l))
      (List.Perm.cons g ih)

lemma pairwise_insertByDate (getTime : String → Int) (g : ScoreStreamGame)
    (l : List ScoreStreamGame)
    (h : l.Pairwise (fun a b => getTime b.startDateTime ≤ getTime a.startDateTime)) :
    (insertByDate getTime g l).Pairwise
      (fun a b => getTime b.startDateTime ≤ getTime a.startDateTime) := by
  induction l with
  | nil => simp [insertByDate]
  | cons b l ih =>
    rw [List.pairwise_cons] at h
    unfold insertByDate
    split
    · rw [List.pairwise_cons]
      refine ⟨?_, List.pairwise_cons.mpr h⟩
      intro x hx
      rcases List.mem_cons.mp hx with hx | hx
      · subst hx
        assumption
      · exact le_trans (h.1 x hx) (by assumption)
    · rw [List.pairwise_cons]
      refine ⟨?_, ih h.2⟩
      intro x hx
      rcases (mem_insertByDate getTime g x l).mp hx with hx | hx
      · subst hx
        omega
      · exact h.1 x hx

lemma pairwise_sortGames (getTime : String → Int) (l : List ScoreStreamGame) :
    (sortGames getTime l).Pairwise
      (fun a b => getTime b.startDateTime ≤ getTime a.startDateTime) := by
  induction l with
  | nil => simp [sortGames]
  | cons g l ih =>
    exact pairwise_insertByDate getTime g (sortGames getTime l) ih

lemma insertByDate_skip (getTime : String → Int) (g b : ScoreStreamGame)
    (l : List ScoreStreamGame)
    (h : ¬ getTime b.startDateTime ≤ getTime g.startDateTime) :
    insertByDate getTime g (b :: l) = b :: insertByDate getTime g l := by
  simp only [insertByDate]
  rw [if_neg h]

lemma filter_insertByDate (getTime : String → Int) (g : ScoreStreamGame)
    (k : Int) (l : List ScoreStreamGame) :
    (insertByDate getTime g l).filter (fun x => getTime x.startDateTime == k) =
      if getTime g.startDateTime == k then
        g :: l.filter (fun x => getTime x.startDateTime == k)
      else l.filter (fun x => getTime x.startDateTime == k) := by
  induction l with
  | nil =>
    unfold insertByDate
    rw [List.filter_cons]
  | cons b l ih =>
    unfold insertByDate
    split
    · rw [List.filter_cons]
    · rename_i hskip
      rw [List.filter_cons, ih, List.filter_cons]
      by_cases hg : (getTime g.startDateTime == k) = true
      · have hgk : getTime g.startDateTime = k := eq_of_beq hg
        have hb : (getTime b.startDateTime == k) = false := by
          rw [beq_eq_false_iff_ne]
          omega
        rw [hg, hb]
        simp
      · have hg2 : (getTime g.startDateTime == k) = false := by
          revert hg
          cases getTime g.startDateTime == k <;> simp
        rw [hg2]
        simp

lemma filter_sortGames (getTime : String → Int) (k : Int)
    (l : List ScoreStreamGame) :
    (sortGames getTime l).filter (fun x => getTime x.startDateTime == k) =
      l.filter (fun x => getTime x.startDateTime == k) := by
  induction l with
  | nil => rfl
  | cons g l ih =>
    unfold sortGames
    rw [filter_insertByDate, List.filter_cons, ih]

/-- Claim C6: every list returned by `getUserGames` is sorted descending by
start timestamp; games with equal timestamps keep their pre-sort relative
order (for each timestamp the filtered subsequence is unchanged by the
sort); and three games with strictly increasing timestamps T1 < T2 < T3
come back in the order [T3, T2, T1]. -/
theorem getUserGames_sorted_stable (getTime : String → Int)
    (favTeams : List Team) (responses : List (Option TeamResponse)) :
    (getUserGames getTime favTeams responses).Pairwise
      (fun a b => getTime b.startDateTime ≤ getTime a.startDateTime) ∧
    (∀ k : Int,
      (getUserGames getTime favTeams responses).filter
          (fun x => getTime x.startDateTime == k) =
        (gamesBeforeSort favTeams responses).filter
          (fun x => getTime x.startDateTime == k)) ∧
    (∀ (f : String → Int) (g1 g2 g3 : ScoreStreamGame),
      f g1.startDateTime < f g2.startDateTime →
      f g2.startDateTime < f g3.startDateTime →
      sortGames f [g1, g2, g3] = [g3, g2, g1]) := by
  refine ⟨?_, ?_, ?_⟩
  · unfold getUserGames
    split
    · simp
    · exact pairwise_sortGames getTime _
  · intro k
    unfold getUserGames gamesBeforeSort
    split
    · rfl
    · exact filter_sortGames getTime k _
  · intro f g1 g2 g3 h12 h23
    have h13 : f g1.startDateTime < f g3.startDateTime := lt_trans h12 h23
    simp only [sortGames]
    rw [show insertByDate f g3 [] = [g3] from rfl,
      insertByDate_skip f g2 g3 [] (by omega),
      show insertByDate f g2 [] = [g2] from rfl,
      insertByDate_skip f g1 g3 [g2] (by omega),
      insertByDate_skip f g1 g2 [] (by omega),
      show insertByDate f g1 [] = [g1] from rfl]

/-- Witness for claim C6: three concrete games with timestamps 1 < 2 < 3
under a length-based date parse come back in reverse order. -/
theorem getUserGames_sorted_stable_witness :
    (String.length "b.." : Int) < String.length "c..." ∧
    (sortGames (fun s => (String.length s : Int))
      [{ gameId := 1, homeTeamId := 1, awayTeamId := 2, homeTeamName := "A",
         awayTeamName := "B", sportName := none, startDateTime := "a.",
         gameTitle := none, lastScore := none },
       { gameId := 2, homeTeamId := 1, awayTeamId := 2, homeTeamName := "A",
         awayTeamName := "B", sportName := none, startDateTime := "b..",
         gameTitle := none, lastScore := none },
       { gameId := 3, homeTeamId := 1, awayTeamId := 2, homeTeamName := "A",
         awayTeamName := "B", sportName := none, startDateTime := "c...",
         gameTitle := none, lastScore := none }] =
      [{ gameId := 3, homeTeamId := 1, awayTeamId := 2, homeTeamName := "A",
         awayTeamName := "B", sportName := none, startDateTime := "c...",
         gameTitle := none, lastScore := none },
       { gameId := 2, homeTeamId := 1, awayTeamId := 2, homeTeamName := "A",
         awayTeamName := "B", sportName := none, startDateTime := "b..",
         gameTitle := none, lastScore := none },
       { gameId := 1, homeTeamId := 1, awayTeamId := 2, homeTeamName := "A",
         awayTeamName := "B", sportName := none, startDateTime := "a.",
         gameTitle := none, lastScore := none }]) :=
  ⟨by decide,
   (getUserGames_sorted_stable (fun s => (String.length s : Int)) [] []).2.2
     (fun s => (String.length s : Int))
     { gameId := 1, homeTeamId := 1, awayTeamId := 2, homeTeamName := "A",
       awayTeamName := "B", sportName := none, startDateTime := "a.",
       gameTitle := none, lastScore := none }
     { gameId := 2, homeTeamId := 1, awayTeamId := 2, homeTeamName := "A",
       awayTeamName := "B", sportName := none, startDateTime := "b..",
       gameTitle := none, lastScore := none }
     { gameId := 3, homeTeamId := 1, awayTeamId := 2, homeTeamName := "A",
       awayTeamName := "B", sportName := none, startDateTime := "c...",
       gameTitle := none, lastScore := none }
     (by decide) (by decide)⟩

lemma foldl_inv {α β : Type} (P : α → Prop) (step : α → β → α)
    (hstep : ∀ st b, P st → P (step st b)) :
    ∀ (l : List β) (st : α), P st → P (l.foldl step st) := by
  intro l
  induction l with
  | nil =>
    intro st h
    exact h
  | cons b l ih =>
    intro st h
    exact ih _ (hstep st b h)

/-- The invariant maintained by the de-duplicating accumulation: collected
game ids are pairwise distinct, every collected id is marked seen, and
every seen id is realized by a collected game. -/
def GoodState (st : CollectState) : Prop :=
  (st.games.map (fun g => g.gameId)).Nodup ∧
  (∀ g ∈ st.games, g.gameId ∈ st.seen) ∧
  (∀ id ∈ st.seen, ∃ og ∈ st.games, og.gameId = id)

lemma addGame_good (st : CollectState) (g : RawGame) (h : GoodState st) :
    GoodState (addGame st g) := by
  unfold addGame
  split
  · rename_i hc
    have hnotseen : g.gameId ∉ st.seen := by
      have hc2 := hc
      rw [Bool.and_eq_true] at hc2
      have h2 := hc2.2
      simp only [Bool.not_eq_true'] at h2
      simpa using h2
    refine ⟨?_, ?_, ?_⟩
    · show ((st.games ++ [mkGame st.teamMap g]).map (fun x => x.gameId)).Nodup
      rw [List.map_append]
      rw [List.nodup_append]
      refine ⟨h.1, List.nodup_singleton _, ?_⟩
      intro a ha
      obtain ⟨x, hx, hxa⟩ := List.mem_map.mp ha
      have : a ∈ st.seen := hxa ▸ h.2.1 x hx
      simp only [List.map_cons, List.map_nil, List.mem_singleton]
      intro heq
      rw [heq] at this
      exact hnotseen this
    · intro x hx
      rcases List.mem_append.mp hx with hx | hx
      · exact List.mem_append_left _ (h.2.1 x hx)
      · rw [List.mem_singleton] at hx
        subst hx
        exact List.mem_append_right _ (List.mem_singleton.mpr rfl)
    · intro id hid
      rcases List.mem_append.mp hid with hid | hid
      · obtain ⟨og, hog, hogid⟩ := h.2.2 id hid
        exact ⟨og, List.mem_append_left _ hog, hogid⟩
      · rw [List.mem_singleton] at hid
        subst hid
        exact ⟨mkGame st.teamMap g,
          List.mem_append_right _ (List.mem_singleton.mpr rfl), rfl⟩
  · exact h

lemma processResponse_good (st : CollectState) (r : Option TeamResponse)
    (h : GoodState st) : GoodState (processResponse st r) := by
  cases r with
  | none => exact h
  | some tr =>
    unfold processResponse
    exact foldl_inv GoodState addGame addGame_good tr.games _ h

lemma collectGames_good (initMap : List (Int × Team))
    (responses : List (Option TeamResponse)) :
    GoodState (collectGames initMap responses) := by
  unfold collectGames
  apply foldl_inv GoodState processResponse processResponse_good
  refine ⟨by simp, by simp, by simp⟩

lemma seen_subset_addGame (st : CollectState) (g : RawGame) :
    st.seen ⊆ (addGame st g).seen := by
  unfold addGame
  split
  · exact List.subset_append_left _ _
  · exact List.Subset.refl _

lemma seen_subset_foldl (gl : List RawGame) :
    ∀ st : CollectState, st.seen ⊆ (gl.foldl addGame st).seen := by
  induction gl with
  | nil =>
    intro st
    exact List.Subset.refl _
  | cons g gl ih =>
    intro st
    exact List.Subset.trans (seen_subset_addGame st g) (ih (addGame st g))

lemma seen_subset_processResponse (st : CollectState) (r : Option TeamResponse) :
    st.seen ⊆ (processResponse st r).seen := by
  cases r with
  | none => exact List.Subset.refl _
  | some tr =>
    exact seen_subset_foldl tr.games
      { teamMap := mergeTeams st.teamMap tr.teams, seen := st.seen, games := st.games }

lemma addGame_mem_seen (st : CollectState) (g : RawGame) (hg : g.gameId ≠ 0) :
    g.gameId ∈ (addGame st g).seen := by
  unfold addGame
  split
  · exact List.mem_append_right _ (List.mem_singleton.mpr rfl)
  · rename_i hc
    have hb : (g.gameId != 0) = true := by simpa using hg
    have hnn : (!(st.seen.contains g.gameId)) = false := by
      cases hcon : (!(st.seen.contains g.gameId)) with
      | false => rfl
      | true => exact absurd (by rw [Bool.and_eq_true]; exact ⟨hb, hcon⟩) hc
    have hcontains : st.seen.contains g.gameId = true := by simpa using hnn
    simpa using hcontains

lemma foldl_addGame_seen (gl : List RawGame) :
    ∀ (st : CollectState) (g : RawGame), g ∈ gl → g.gameId ≠ 0 →
      g.gameId ∈ (gl.foldl addGame st).seen := by
  induction gl with
  | nil =>
    intro st g hmem
    exact absurd hmem (List.not_mem_nil g)
  | cons b gl ih =>
    intro st g hmem hg
    rcases List.mem_cons.mp hmem with hmem | hmem
    · subst hmem
      exact seen_subset_foldl gl (addGame st g) (addGame_mem_seen st g hg)
    · exact ih (addGame st b) g hmem hg

lemma seen_subset_fold_responses (rs : List (Option TeamResponse)) :
    ∀ st : CollectState, st.seen ⊆ (rs.foldl processResponse st).seen := by
  induction rs with
  | nil =>
    intro st
    exact List.Subset.refl _
  | cons r rs ih =>
    intro st
    exact List.Subset.trans (seen_subset_processResponse st r) (ih _)

lemma fold_responses_seen (responses : List (Option TeamResponse)) :
    ∀ (st : CollectState) (tr : TeamResponse) (g : RawGame),
      some tr ∈ responses → g ∈ tr.games → g.gameId ≠ 0 →
      g.gameId ∈ (responses.foldl processResponse st).seen := by
  induction responses with
  | nil =>
    intro st tr g hmem
    exact absurd hmem (List.not_mem_nil _)
  | cons r rs ih =>
    intro st tr g hmem hgmem hg
    rcases List.mem_cons.mp hmem with hmem | hmem
    · have hseen : g.gameId ∈ (processResponse st r).seen := by
        rw [← hmem]
        unfold processResponse
        exact foldl_addGame_seen tr.games _ g hgmem hg
      exact seen_subset_fold_responses rs (processResponse st r) hseen
    · exact ih (processResponse st r) tr g hmem hgmem hg

/-- Claim C7: the merged game list of the fan-out `getUserGames` never
contains two entries with the same game id, and every nonzero game id
delivered by some fan-out response is represented by exactly one entry
(at least one by this theorem's second part, at most one by the first). -/
theorem getUserGames_dedup :
    (∀ (getTime : String → Int) (favTeams : List Team)
        (responses : List (Option TeamResponse)),
      ((getUserGames getTime favTeams responses).map (fun g => g.gameId)).Nodup) ∧
    (∀ (getTime : String → Int) (favTeams : List Team)
        (responses : List (Option TeamResponse)) (tr : TeamResponse) (g : RawGame),
      favoriteTeamIds favTeams ≠ [] →
      some tr ∈ responses → g ∈ tr.games → g.gameId ≠ 0 →
      ∃ og ∈ getUserGames getTime favTeams responses, og.gameId = g.gameId) := by
  constructor
  · intro getTime favTeams responses
    unfold getUserGames
    split
    · simp
    · have hgood := collectGames_good (initialTeamMap favTeams) responses
      have hperm :=
        (perm_sortGames getTime
          (collectGames (initialTeamMap favTeams) responses).games).map
          (fun g => g.gameId)
      exact hperm.nodup_iff.mpr hgood.1
  · intro getTime favTeams responses tr g hfav hmem hgmem hg
    have hgood := collectGames_good (initialTeamMap favTeams) responses
    have hseen : g.gameId ∈ (collectGames (initialTeamMap favTeams) responses).seen := by
      unfold collectGames
      exact fold_responses_seen responses _ tr g hmem hgmem hg
    obtain ⟨og, hog, hogid⟩ := hgood.2.2 _ hseen
    refine ⟨og, ?_, hogid⟩
    unfold getUserGames
    rw [if_neg hfav]
    exact (perm_sortGames getTime _).mem_iff.mpr hog

/-- A raw game with id 5, used by the witness of claim C7. -/
def rawGame5 : RawGame :=
  { gameId := 5, homeTeamId := 1, awayTeamId := 2, startDateTime := "d" }

/-- Witness for claim C7: the same game id arriving in two fan-out
responses still yields an entry with that id. -/
theorem getUserGames_dedup_witness :
    ∃ og ∈ getUserGames (fun s => (String.length s : Int))
        [{ teamId := 1, teamName := some "A" }]
        [some { teams := [], games := [rawGame5] },
         some { teams := [], games := [rawGame5] }],
      og.gameId = rawGame5.gameId :=
  getUserGames_dedup.2 (fun s => (String.length s : Int))
    [{ teamId := 1, teamName := some "A" }]
    [some { teams := [], games := [rawGame5] },
     some { teams := [], games := [rawGame5] }]
    { teams := [], games := [rawGame5] } rawGame5
    (by decide) (by decide) (by decide) (by decide)

lemma team_placeholder_ne_empty (id : Int) : ("Team " ++ toString id) ≠ "" := by
  intro h
  have hlen := congrArg String.length h
  rw [String.length_append] at hlen
  have h5 : String.length "Team " = 5 := rfl
  have h0 : String.length "" = 0 := rfl
  rw [h5, h0] at hlen
  omega

lemma strOr_ne_empty (a : Option String) (b : String) (hb : b ≠ "") :
    strOr a b ≠ "" := by
  cases a with
  | none => exact hb
  | some s =>
    simp only [strOr]
    split
    · exact hb
    · rename_i hcond
      simpa using hcond

lemma resolveTeamName_ne_empty (t : Option Team) (id : Int) :
    resolveTeamName t id ≠ "" :=
  strOr_ne_empty _ _ (strOr_ne_empty _ _ (team_placeholder_ne_empty id))

lemma strOr_some_ne (s : String) (b : String) (h : s ≠ "") :
    strOr (some s) b = s := by
  simp only [strOr]
  rw [if_neg (by simpa using h)]

lemma strOr_some_empty (b : String) : strOr (some "") b = b := by
  simp [strOr]

/-- The invariant that every collected game carries nonempty display
names. -/
def NamesGood (st : CollectState) : Prop :=
  ∀ g ∈ st.games, g.homeTeamName ≠ "" ∧ g.awayTeamName ≠ ""

lemma addGame_namesGood (st : CollectState) (g : RawGame) (h : NamesGood st) :
    NamesGood (addGame st g) := by
  unfold addGame
  split
  · intro x hx
    rcases List.mem_append.mp hx with hx | hx
    · exact h x hx
    · rw [List.mem_singleton] at hx
      subst hx
      exact ⟨resolveTeamName_ne_empty _ _, resolveTeamName_ne_empty _ _⟩
  · exact h

lemma processResponse_namesGood (st : CollectState) (r : Option TeamResponse)
    (h : NamesGood st) : NamesGood (processResponse st r) := by
  cases r with
  | none => exact h
  | some tr =>
    unfold processResponse
    exact foldl_inv NamesGood addGame addGame_namesGood tr.games _ h

lemma collectGames_namesGood (initMap : List (Int × Team))
    (responses : List (Option TeamResponse)) :
    NamesGood (collectGames initMap responses) := by
  unfold collectGames
  apply foldl_inv NamesGood processResponse processResponse_namesGood
  intro g hg
  exact absurd hg (List.not_mem_nil g)

/-- Claim C8: the display name of a referenced team follows the fallback
chain explicit name, then alternate short name, then the synthesized
`Team id` placeholder; the resolution never yields an empty string, a
record lacking both name fields yields exactly the placeholder, and every
game returned by `getUserGames` carries nonempty team names. -/
theorem teamName_fallback :
    (∀ (t : Option Team) (id : Int) (n : String),
      t.bind (fun tm => tm.teamName) = some n → n ≠ "" →
      resolveTeamName t id = n) ∧
    (∀ (t : Option Team) (id : Int) (n : String),
      (∀ m, t.bind (fun tm => tm.teamName) = some m → m = "") →
      t.bind (fun tm => tm.minTeamName) = some n → n ≠ "" →
      resolveTeamName t id = n) ∧
    (∀ (t : Option Team) (id : Int),
      (∀ m, t.bind (fun tm => tm.teamName) = some m → m = "") →
      (∀ m, t.bind (fun tm => tm.minTeamName) = some m → m = "") →
      resolveTeamName t id = "Team " ++ toString id) ∧
    (∀ (t : Option Team) (id : Int), resolveTeamName t id ≠ "") ∧
    (∀ (getTime : String → Int) (favTeams : List Team)
        (responses : List (Option TeamResponse)),
      ∀ g ∈ getUserGames getTime favTeams responses,
        g.homeTeamName ≠ "" ∧ g.awayTeamName ≠ "") := by
  refine ⟨?_, ?_, ?_, ?_, ?_⟩
  · intro t id n h hne
    unfold resolveTeamName
    rw [h]
    exact strOr_some_ne n _ hne
  · intro t id n hA hB hne
    unfold resolveTeamName
    rw [hB, strOr_some_ne n _ hne]
    cases hbt : t.bind (fun tm => tm.teamName) with
    | none => rfl
    | some m =>
      have : m = "" := hA m hbt
      subst this
      exact strOr_some_empty n
  · intro t id hA hB
    unfold resolveTeamName
    have hinner : strOr (t.bind (fun tm => tm.minTeamName))
        ("Team " ++ toString id) = "Team " ++ toString id := by
      cases hbm : t.bind (fun tm => tm.minTeamName) with
      | none => rfl
      | some m =>
        have : m = "" := hB m hbm
        subst this
        exact strOr_some_empty _
    rw [hinner]
    cases hbt : t.bind (fun tm => tm.teamName) with
    | none => rfl
    | some m =>
      have : m = "" := hA m hbt
      subst this
      exact strOr_some_empty _
  · intro t id
    exact resolveTeamName_ne_empty t id
  · intro getTime favTeams responses g hg
    unfold getUserGames at hg
    split at hg
    · exact absurd hg (List.not_mem_nil g)
    · have hmem := (perm_sortGames getTime _).mem_iff.mp hg
      exact collectGames_namesGood (initialTeamMap favTeams) responses g hmem

/-- Witness for claim C8: a team record with both name fields absent
resolves to exactly the placeholder. -/
theorem teamName_fallback_witness :
    resolveTeamName (some { teamId := 7 }) 7 = "Team " ++ toString (7 : Int) :=
  teamName_fallback.2.2.1 (some { teamId := 7 }) 7
    (fun m h => nomatch h) (fun m h => nomatch h)

end ScoreStreamLookup

namespace Health

/-- A value of the `checks` object of the health endpoint: JavaScript
booleans, numbers and strings. -/
inductive CheckVal where
  | b (v : Bool)
  | n (v : Nat)
  | s (v : String)
deriving DecidableEq

/-- The environment variables the health checks read; `none` models an
unset variable. -/
structure HealthEnv where
  scorestreamApiKey : Option String := none
  scorestreamAccessToken : Option String := none
  scorestreamApiBase : Option String := none
deriving DecidableEq

/-- JavaScript `!!v` for a possibly-absent string. -/
def optStrTruthy (o : Option String) : Bool :=
  match o with
  | some s => s != ""
  | none => false

/-- JavaScript `v?.length || 0` for a possibly-absent string. -/
def optStrLen (o : Option String) : Nat :=
  match o with
  | some s => s.length
  | none => 0

/-- JavaScript `v || "not set"` for a possibly-absent string. -/
def orNotSet (o : Option String) : String :=
  match o with
  | some s => if s == "" then "not set" else s
  | none => "not set"

/-- The values of the `checks` object, in declaration order. -/
def healthChecks (env : HealthEnv) : List CheckVal :=
  [ .b true,
    .b (optStrTruthy env.scorestreamApiKey),
    .n (optStrLen env.scorestreamApiKey),
    .b (optStrTruthy env.scorestreamAccessToken),
    .n (optStrLen env.scorestreamAccessToken),
    .s (orNotSet env.scorestreamApiBase) ]

/-- Expression `Object.values(healthData.checks).every(check => check === true)`. -/
def allChecksPass (env : HealthEnv) : Bool :=
  (healthChecks env).all (fun c => c == .b true)

/-- The HTTP status chosen by the GET handler. -/
def healthStatus (env : HealthEnv) : Nat :=
  if allChecksPass env then 200 else 503

/-- Claim C9: the health GET endpoint responds 200 exactly when every value
of its checks object passes the strict `=== true` test, and 503 in every
other case. -/
theorem healthStatus_spec (env : HealthEnv) :
    (healthStatus env = 200 ∨ healthStatus env = 503) ∧
    (healthStatus env = 200 ↔ ∀ c ∈ healthChecks env, c = .b true) := by
  constructor
  · unfold healthStatus
    split
    · exact Or.inl rfl
    · exact Or.inr rfl
  · unfold healthStatus allChecksPass
    cases hall : (healthChecks env).all (fun c => c == .b true) with
    | true =>
      rw [if_pos rfl]
      refine iff_of_true rfl ?_
      intro c hc
      have := (List.all_eq_true.mp hall) c hc
      exact eq_of_beq this
    | false =>
      rw [if_neg (by simp)]
      refine iff_of_false (by omega) ?_
      intro hforall
      have : (healthChecks env).all (fun c => c == .b true) = true :=
        List.all_eq_true.mpr (fun c hc => beq_iff_eq.mpr (hforall c hc))
      rw [hall] at this
      exact Bool.false_ne_true this

/-- Witness for claim C9 at a fully configured environment: the numeric
length checks are never the boolean `true`, so the status is 503. -/
theorem healthStatus_spec_witness :
    (healthStatus { scorestreamApiKey := some "k", scorestreamAccessToken := some "t",
                    scorestreamApiBase := some "https://x" } = 200 ∨
     healthStatus { scorestreamApiKey := some "k", scorestreamAccessToken := some "t",
                    scorestreamApiBase := some "https://x" } = 503) ∧
    (healthStatus { scorestreamApiKey := some "k", scorestreamAccessToken := some "t",
                    scorestreamApiBase := some "https://x" } = 200 ↔
      ∀ c ∈ healthChecks { scorestreamApiKey := some "k", scorestreamAccessToken := some "t",
                           scorestreamApiBase := some "https://x" }, c = .b true) :=
  healthStatus_spec
    { scorestreamApiKey := some "k", scorestreamAccessToken := some "t",
      scorestreamApiBase := some "https://x" }

end Health
